import Mathlib

/-!
Shallow embedding of the TLS 1.3 record layer (`tls_record_layer_13.cpp`) and
the TLS 1.3 client handshake driver (`tls_client_impl_13.cpp`) of this
repository, together with theorems settling the frozen claims about them.

Bytes are modelled as `Nat` (all values read from the wire are compared
against constants below 256, so no wrap-around arithmetic occurs).  Fallible
operations (C++ `throw` of a `TLS_Exception`, `Invalid_Argument`,
`Not_Implemented`, or a failed `BOTAN_ASSERT`) are modelled in `Except`.
-/

namespace BotanTLS

/-- Error outcomes: the TLS alerts thrown via `TLS_Exception` plus the other
exception kinds the source can raise (`Invalid_Argument`, `Not_Implemented`,
and failed `BOTAN_ASSERT` checks, modelled as `internal_error`). -/
inductive TLSError where
  | unexpected_message
  | protocol_version
  | decode_error
  | record_overflow
  | illegal_parameter
  | unsupported_extension
  | decrypt_error
  | bad_record_mac
  | not_implemented
  | invalid_argument
  | internal_error
deriving DecidableEq, Repr

/-- The `Record_Type` enumeration; wire octets 0x14..0x17 (`tls_magic.h` values
used by the source). -/
inductive Record_Type where
  | APPLICATION_DATA
  | HANDSHAKE
  | ALERT
  | CHANGE_CIPHER_SPEC
deriving DecidableEq, Repr

/-- Wire octet of a record type: handshake 0x16, application_data 0x17,
alert 0x15, change_cipher_spec 0x14. -/
def Record_Type.toByte : Record_Type → Nat
  | .APPLICATION_DATA => 0x17
  | .HANDSHAKE => 0x16
  | .ALERT => 0x15
  | .CHANGE_CIPHER_SPEC => 0x14

/-- Model of `read_record_type` from `tls_record_layer_13.cpp`: reject a type octet
outside {0x14, 0x15, 0x16, 0x17} with `unexpected_message`. -/
def read_record_type (type_byte : Nat) : Except TLSError Record_Type :=
  if type_byte = 0x17 then .ok .APPLICATION_DATA
  else if type_byte = 0x16 then .ok .HANDSHAKE
  else if type_byte = 0x15 then .ok .ALERT
  else if type_byte = 0x14 then .ok .CHANGE_CIPHER_SPEC
  else .error .unexpected_message

/-- Botan's `make_uint16`: big-endian combination of two bytes. -/
def make_uint16 (hi lo : Nat) : Nat := hi * 256 + lo

def TLS_HEADER_SIZE : Nat := 5
def MAX_PLAINTEXT_SIZE : Nat := 16384
def MAX_CIPHERTEXT_SIZE_TLS13 : Nat := 16640

inductive Connection_Side where
  | CLIENT
  | SERVER
deriving DecidableEq, Repr

/-- The `Cipher_State` collaborator, opaque to the record layer: only the
three operations the record layer calls.  `encrypt_record_fragment` maps the
serialized header (associated data) and the `TLSInnerPlaintext` bytes to the
ciphertext fragment; `decrypt_record_fragment` inverts it, yielding the
record sequence number and the inner plaintext, or fails (e.g. with
`bad_record_mac`). -/
structure Cipher_State where
  encrypt_output_length : Nat → Nat
  encrypt_record_fragment : List Nat → List Nat → List Nat
  decrypt_record_fragment : List Nat → List Nat → Except TLSError (Nat × List Nat)

/-- Model of `verify_change_cipher_spec`: the fragment must be the single byte 0x01. -/
def verify_change_cipher_spec (data : List Nat) : Bool :=
  data = [0x01]

/-- Decoded `TLSPlaintext` header (the inbound `TLSPlaintext_Header`
constructor's result). -/
structure TLSPlaintext_Header where
  type : Record_Type
  legacy_version : Nat
  fragment_length : Nat
  serialized : List Nat
deriving DecidableEq, Repr

/-- The inbound `TLSPlaintext_Header` constructor: read the type octet,
check the legacy version (0x0303 always allowed, 0x0301 only on the initial
record), reject empty non-application-data fragments with `decode_error`,
and enforce the length limits (2^14 + 256 for protected application data,
2^14 otherwise) with `record_overflow`. -/
def parse_header (hdr : List Nat) (initial_record : Bool) :
    Except TLSError TLSPlaintext_Header :=
  match read_record_type (hdr.getD 0 0) with
  | .error e => .error e
  | .ok type =>
    let legacy_version := make_uint16 (hdr.getD 1 0) (hdr.getD 2 0)
    let fragment_length := make_uint16 (hdr.getD 3 0) (hdr.getD 4 0)
    if legacy_version ≠ 0x0303 ∧ ¬(initial_record = true ∧ legacy_version = 0x0301) then
      .error .protocol_version
    else if fragment_length = 0 ∧ type ≠ .APPLICATION_DATA then
      .error .decode_error
    else if type = .APPLICATION_DATA ∧ fragment_length > MAX_CIPHERTEXT_SIZE_TLS13 then
      .error .record_overflow
    else if type ≠ .APPLICATION_DATA ∧ fragment_length > MAX_PLAINTEXT_SIZE then
      .error .record_overflow
    else
      .ok ⟨type, legacy_version, fragment_length, hdr⟩

/-- The outbound `TLSPlaintext_Header` constructor: serialize type octet,
legacy version (0x0301 when the compatibility version is requested, else
0x0303) and the fragment length truncated to 16 bits
(`static_cast<uint16_t>`). -/
def serialize_header (type : Record_Type) (frgmnt_length : Nat)
    (use_compatibility_version : Bool) : List Nat :=
  [type.toByte,
   (if use_compatibility_version then 0x0301 else 0x0303) / 256,
   (if use_compatibility_version then 0x0301 else 0x0303) % 256,
   (frgmnt_length % 65536) / 256,
   (frgmnt_length % 65536) % 256]

/-- The `Record_Layer` state: connection side, the `m_initial_record` flag and
the inbound read buffer. -/
structure Record_Layer where
  side : Connection_Side
  initial_record : Bool
  read_buffer : List Nat
deriving DecidableEq, Repr

/-- A fresh record layer for the given side (`Record_Layer` constructor). -/
def Record_Layer.start (side : Connection_Side) : Record_Layer :=
  ⟨side, true, []⟩

/-- Model of `copy_data`: append bytes from the peer to the read buffer. -/
def copy_data (rl : Record_Layer) (data_from_peer : List Nat) : Record_Layer :=
  { rl with read_buffer := rl.read_buffer ++ data_from_peer }

/-- A decoded inbound record: type, optional decrypted sequence number, and
the fragment (inner-content-type byte already stripped on protected
records). -/
structure Record where
  type : Record_Type
  seq_no : Option Nat
  fragment : List Nat
deriving DecidableEq, Repr

/-- Result of `next_record`: either `n` more bytes are needed, or a record. -/
inductive ReadResult where
  | needMore (n : Nat)
  | record (r : Record)
deriving DecidableEq, Repr

/-- Model of `Record_Layer::next_record`: buffer until a whole record is available,
parse the header, verify a plaintext change_cipher_spec payload, decrypt
protected (application_data) records through the cipher state, strip and
validate the inner content type, and consume the bytes. -/
def next_record (rl : Record_Layer) (cipher_state : Option Cipher_State) :
    Except TLSError (ReadResult × Record_Layer) :=
  -- BOTAN_ASSERT(!m_initial_record || m_side == SERVER)
  if rl.initial_record = true ∧ rl.side ≠ .SERVER then .error .internal_error
  else if rl.read_buffer.length < TLS_HEADER_SIZE then
    .ok (.needMore (TLS_HEADER_SIZE - rl.read_buffer.length), rl)
  else
    match parse_header (rl.read_buffer.take TLS_HEADER_SIZE) rl.initial_record with
    | .error e => .error e
    | .ok hdr =>
      if rl.read_buffer.length < TLS_HEADER_SIZE + hdr.fragment_length then
        .ok (.needMore (TLS_HEADER_SIZE + hdr.fragment_length - rl.read_buffer.length), rl)
      else
        let fragment := (rl.read_buffer.drop TLS_HEADER_SIZE).take hdr.fragment_length
        if hdr.type = .CHANGE_CIPHER_SPEC ∧ ¬ verify_change_cipher_spec fragment then
          .error .unexpected_message
        else
          let rest := rl.read_buffer.drop (TLS_HEADER_SIZE + hdr.fragment_length)
          if hdr.type = .APPLICATION_DATA then
            match cipher_state with
            | none => .error .unexpected_message  -- premature Application Data
            | some c =>
              match c.decrypt_record_fragment hdr.serialized fragment with
              | .error e => .error e
              | .ok (seq_no, plaintext) =>
                -- hydrate the actual content type from TLSInnerPlaintext
                match read_record_type (plaintext.getLastD 0) with
                | .error e => .error e
                | .ok true_type =>
                  if true_type = .CHANGE_CIPHER_SPEC then
                    .error .unexpected_message  -- protected change cipher spec
                  else
                    .ok (.record ⟨true_type, some seq_no, plaintext.dropLast⟩,
                         { rl with read_buffer := rest, initial_record := false })
          else
            .ok (.record ⟨hdr.type, none, fragment⟩,
                 { rl with read_buffer := rest, initial_record := false })

/-- One on-wire record produced by `prepare_records`: its 5-byte header and
its body (the plaintext fragment, or the ciphertext fragment when
protected).  The byte vector the source returns is the concatenation
`header ++ body` over all records, in order. -/
structure OutRecord where
  header : List Nat
  body : List Nat
deriving DecidableEq, Repr

/-- Legacy version carried by an outbound record (bytes 1 and 2 of its
header). -/
def OutRecord.version (r : OutRecord) : Nat :=
  make_uint16 (r.header.getD 1 0) (r.header.getD 2 0)

/-- One iteration of the fragmentation loop body in
`Record_Layer::prepare_records`: build the header (outer type
`application_data` when protecting), assemble `TLSInnerPlaintext`
(`chunk ++ [type byte]`), encrypt, and check
`BOTAN_ASSERT_NOMSG(fragment.size() == ct_size)`. -/
def encode_fragment (type : Record_Type) (cipher_state : Option Cipher_State)
    (use_compatibility_version : Bool) (chunk : List Nat) :
    Except TLSError OutRecord :=
  match cipher_state with
  | none =>
    .ok ⟨serialize_header type chunk.length use_compatibility_version, chunk⟩
  | some c =>
    let ct_size := c.encrypt_output_length (chunk.length + 1)
    let header := serialize_header .APPLICATION_DATA ct_size use_compatibility_version
    let fragment := c.encrypt_record_fragment header (chunk ++ [type.toByte])
    if fragment.length = ct_size then .ok ⟨header, fragment⟩
    else .error .internal_error

/-- The do-while fragmentation loop of `Record_Layer::prepare_records`:
process `min(to_process, MAX_PLAINTEXT_SIZE)` bytes per iteration, with the
compatibility version only on the client's very first record
(`m_initial_record` is cleared after the first header is built), looping
while bytes remain. -/
def prepare_loop (type : Record_Type) (cipher_state : Option Cipher_State)
    (side : Connection_Side) (data : List Nat) (initial_record : Bool) :
    Except TLSError (List OutRecord) :=
  let pt_size := min data.length MAX_PLAINTEXT_SIZE
  let use_compatibility_version : Bool :=
    if side = .CLIENT then initial_record else false
  match encode_fragment type cipher_state use_compatibility_version (data.take pt_size) with
  | .error e => .error e
  | .ok r =>
    if _h : data.length ≤ MAX_PLAINTEXT_SIZE then .ok [r]
    else
      match prepare_loop type cipher_state side (data.drop pt_size) false with
      | .error e => .error e
      | .ok rs => .ok (r :: rs)
termination_by data.length
decreasing_by
  simp only [List.length_drop, MAX_PLAINTEXT_SIZE] at *
  omega

/-- The byte vector actually returned: headers and bodies concatenated in
order. -/
def wire_output (records : List OutRecord) : List Nat :=
  (records.map (fun r => r.header ++ r.body)).flatten

/-- The `output_length` precomputed by `Record_Layer::prepare_records`
before the loop ("calculate the final buffer length"): number of records
times the header size, plus, when protecting, a full-size ciphertext per
record except the last and `encrypt_output_length(data.size() %
MAX_PLAINTEXT_SIZE + 1)` for the last, and otherwise just the plaintext
size. -/
def expected_output_length (data_len : Nat) (cipher_state : Option Cipher_State) : Nat :=
  let records := max ((data_len + MAX_PLAINTEXT_SIZE - 1) / MAX_PLAINTEXT_SIZE) 1
  records * TLS_HEADER_SIZE +
    (match cipher_state with
     | some c =>
       c.encrypt_output_length (MAX_PLAINTEXT_SIZE + 1) * (records - 1) +
         c.encrypt_output_length (data_len % MAX_PLAINTEXT_SIZE + 1)
     | none => data_len)

/-- Model of `Record_Layer::prepare_records`: the entry assertions (the initial
record is only ever sent by a client; application data is never written
unprotected; zero-length fragments only for application data), the
change_cipher_spec payload check (`Invalid_Argument`), the fragmentation
loop, and the final `BOTAN_ASSERT_NOMSG(output.size() == output_length)`.
Returns the wire bytes, the records they consist of, and the record layer
with `m_initial_record` cleared. -/
def prepare_records (rl : Record_Layer) (type : Record_Type) (data : List Nat)
    (cipher_state : Option Cipher_State) :
    Except TLSError (List Nat × List OutRecord × Record_Layer) :=
  if rl.initial_record = true ∧ rl.side ≠ .CLIENT then .error .internal_error
  else if cipher_state.isNone ∧ type = .APPLICATION_DATA then .error .internal_error
  else if data.length = 0 ∧ type ≠ .APPLICATION_DATA then .error .internal_error
  else if type = .CHANGE_CIPHER_SPEC ∧ ¬ verify_change_cipher_spec data then
    .error .invalid_argument
  else
    match prepare_loop type cipher_state rl.side data rl.initial_record with
    | .error e => .error e
    | .ok records =>
      let output := wire_output records
      if output.length = expected_output_length data.length cipher_state then
        .ok (output, records, { rl with initial_record := false })
      else .error .internal_error

/-- Model of `Record_Layer::prepare_dummy_ccs_record`: assert the CCS is not the
initial record, then prepare an unprotected change_cipher_spec record with
payload {0x01}. -/
def prepare_dummy_ccs_record (rl : Record_Layer) :
    Except TLSError (List Nat × List OutRecord × Record_Layer) :=
  if rl.initial_record = true then .error .internal_error
  else prepare_records rl .CHANGE_CIPHER_SPEC [0x01] none

/-- Repeatedly call `next_record` (with the given fuel), collecting records
until the layer reports that it needs more bytes (or fuel runs out). -/
def readAllRecords (fuel : Nat) (rl : Record_Layer) (cipher_state : Option Cipher_State) :
    Except TLSError (List Record × Record_Layer) :=
  match fuel with
  | 0 => .ok ([], rl)
  | fuel + 1 =>
    match next_record rl cipher_state with
    | .error e => .error e
    | .ok (.needMore _, rl') => .ok ([], rl')
    | .ok (.record r, rl') =>
      match readAllRecords fuel rl' cipher_state with
      | .error e => .error e
      | .ok (rs, rl'') => .ok (r :: rs, rl'')

/-- One outbound `prepare` request: type, plaintext, optional protection. -/
structure PrepCall where
  type : Record_Type
  data : List Nat
  cipher_state : Option Cipher_State

/-- Run a sequence of `prepare_records` calls on one record layer,
collecting all emitted records in order. -/
def run_prepares (rl : Record_Layer) :
    List PrepCall → Except TLSError (List OutRecord × Record_Layer)
  | [] => .ok ([], rl)
  | c :: rest =>
    match prepare_records rl c.type c.data c.cipher_state with
    | .error e => .error e
    | .ok (_, records, rl') =>
      match run_prepares rl' rest with
      | .error e => .error e
      | .ok (records', rl'') => .ok (records ++ records', rl'')

/-! ## Handshake driver (`tls_client_impl_13.cpp`) -/

/-- The fields of the retained ClientHello that the validated handlers
consult: session id, offered cipher suites, versions offered via the
`supported_versions` extension, the set of offered extension type ids, and
whether a `key_share` extension was offered. -/
structure Client_Hello_13 where
  session_id : List Nat
  offered_suites : List Nat
  supported_versions : List Nat
  extension_types : List Nat
  has_key_share : Bool
deriving DecidableEq, Repr

/-- The fields of a ServerHello (or HelloRetryRequest, which shares the
shape) that the client handlers consult. -/
structure Server_Hello_13 where
  random : List Nat
  session_id : List Nat
  ciphersuite : Nat
  selected_version : Nat
  extension_types : List Nat
  has_key_share : Bool
deriving DecidableEq, Repr

/-- Extension type id of `cookie` (RFC 8446: 44), the lone extension a
HelloRetryRequest may add. -/
def TLSEXT_COOKIE : Nat := 44

/-- The TLS 1.2 downgrade sentinel (RFC 8446 4.1.3): last 8 bytes of the
server random. -/
def DOWNGRADE_TLS12 : List Nat := [0x44, 0x4F, 0x57, 0x4E, 0x47, 0x52, 0x44, 0x01]

/-- The TLS 1.1 downgrade sentinel (RFC 8446 4.1.3). -/
def DOWNGRADE_TLS11 : List Nat := [0x44, 0x4F, 0x57, 0x4E, 0x47, 0x52, 0x44, 0x00]

inductive Downgrade_Version where
  | TLS_V11
  | TLS_V12
deriving DecidableEq, Repr

/-- Modelled from the spec: `Server_Hello::random_signals_downgrade` lives
in the message code, which is not part of the given sources; per the spec
("The last 8 bytes of the server random must not equal the TLS 1.2/1.1
downgrade sentinels") it reports which sentinel, if any, the last 8 bytes
of the server random equal. -/
def random_signals_downgrade (random : List Nat) : Option Downgrade_Version :=
  let last8 := random.drop (random.length - 8)
  if last8 = DOWNGRADE_TLS12 then some .TLS_V12
  else if last8 = DOWNGRADE_TLS11 then some .TLS_V11
  else none

/-- Model of `validate_server_hello_ish`: common validation of ServerHello and
HelloRetryRequest against the retained ClientHello — session id echo,
offered cipher suite, offered version, and that every extension present
(except `cookie`) was offered. -/
def validate_server_hello_ish (ch : Client_Hello_13) (sh : Server_Hello_13) :
    Except TLSError Unit :=
  if ch.session_id ≠ sh.session_id then .error .illegal_parameter
  else if sh.ciphersuite ∉ ch.offered_suites then .error .illegal_parameter
  else if sh.selected_version ∉ ch.supported_versions then .error .illegal_parameter
  else if ∃ t ∈ sh.extension_types, t ≠ TLSEXT_COOKIE ∧ t ∉ ch.extension_types then
    .error .unsupported_extension
  else .ok ()

/-- Model of `Client_Impl_13::handle(const Server_Hello_13&)` up to the installation
of the cipher state: the downgrade-sentinel check (TLS 1.1 sentinel →
`protocol_version` alert, TLS 1.2 sentinel → `Not_Implemented`), the common
validation, the HelloRetryRequest consistency checks, and the `key_share`
presence check (`Not_Implemented` for PSK-only).  On success the handler
proceeds to derive the shared secret and install the cipher state, which is
outside the scope of the claims; success is returned as `Unit`. -/
def handle_server_hello_13 (ch : Client_Hello_13) (hrr : Option Server_Hello_13)
    (sh : Server_Hello_13) : Except TLSError Unit :=
  match random_signals_downgrade sh.random with
  | some requested =>
    if requested = .TLS_V11 then .error .protocol_version
    else .error .not_implemented  -- requested = TLS_V12: "downgrade is nyi"
  | none =>
    match validate_server_hello_ish ch sh with
    | .error e => .error e
    | .ok () =>
      match hrr with
      | some h =>
        if h.ciphersuite ≠ sh.ciphersuite then .error .illegal_parameter
        else if h.selected_version ≠ sh.selected_version then .error .illegal_parameter
        else if ¬ sh.has_key_share then .error .not_implemented
        else .ok ()
      | none =>
        if ¬ sh.has_key_share then .error .not_implemented
        else .ok ()

/-- The transcript-hash abstraction: since the handlers only pass transcript
hash values along to the cipher state, the "hash" of a message sequence is
modelled as the message sequence itself (an injective stand-in for the
running hash). -/
structure Transcript_Hash_State where
  messages : List (List Nat)
deriving DecidableEq, Repr

/-- Appending a handshake message to the transcript (the channel updates
the transcript on every sent and received handshake message, in wire
order). -/
def Transcript_Hash_State.update (t : Transcript_Hash_State) (msg : List Nat) :
    Transcript_Hash_State :=
  ⟨t.messages ++ [msg]⟩

/-- Model of `Transcript_Hash_State::current`: hash at the end of the last appended
message. -/
def Transcript_Hash_State.current (t : Transcript_Hash_State) : List (List Nat) :=
  t.messages

/-- Model of `Transcript_Hash_State::previous`: hash as it stood before the last
appended message. -/
def Transcript_Hash_State.previous (t : Transcript_Hash_State) : List (List Nat) :=
  t.messages.dropLast

/-- Observable side effects of the client handlers, in invocation order. -/
inductive Event where
  | sent_dummy_ccs
  | sent_client_finished (msg : List Nat)
  | advanced_with_server_finished (transcript : List (List Nat))
  | advanced_with_client_finished (transcript : List (List Nat))
  | session_activated
  | sent_key_update (update_requested : Bool)
  | updated_read_keys
  | updated_write_keys
deriving DecidableEq, Repr

/-- Model of `Client_Impl_13::handle(const Finished_13&)`.  The entry transcript `t`
has the server Finished as its last appended message (the channel appends
each received handshake message before dispatching it; modelled from the
spec, as the channel implementation is not among the given sources).
`verify_fin` models `Finished_13::verify` against the cipher state as a
function of the transcript hash value; `client_fin` models the computation
of the client Finished message (`Finished_13(cipher_state, current)`).
On MAC mismatch: fatal `decrypt_error`.  Otherwise: optional dummy CCS
(middlebox compatibility mode), send the client Finished (which enters the
transcript), then advance the cipher state with the server-finished
transcript and the client-finished transcript, then activate the session. -/
def handle_finished (verify_fin : List (List Nat) → Bool) (compat_mode : Bool)
    (client_fin : List (List Nat) → List Nat) (t : Transcript_Hash_State) :
    Except TLSError (List Event × Transcript_Hash_State) :=
  if ¬ verify_fin t.previous then .error .decrypt_error
  else
    let ccs_events : List Event := if compat_mode then [.sent_dummy_ccs] else []
    let fin_msg := client_fin t.current
    let t' := t.update fin_msg
    .ok (ccs_events ++
          [.sent_client_finished fin_msg,
           .advanced_with_server_finished t'.previous,
           .advanced_with_client_finished t'.current,
           .session_activated], t')

/-- Model of `Client_Impl_13::process_dummy_change_cipher_spec`: outside the window
after the first ClientHello and before the server Finished, fatal
`unexpected_message`; inside it, no further processing (the state,
including the transcript, is returned unchanged). -/
def process_dummy_change_cipher_spec (has_client_hello has_server_finished : Bool)
    (t : Transcript_Hash_State) : Except TLSError Transcript_Hash_State :=
  if ¬ has_client_hello = true ∨ has_server_finished = true then
    .error .unexpected_message
  else .ok t

/-- Model of `Client_Impl_13::handle(const Key_Update&)`: rotate the read keys; when
the peer requests reciprocation, send `KeyUpdate{update_not_requested}` and
then rotate the write keys. -/
def handle_key_update (update_requested : Bool) : List Event :=
  [.updated_read_keys] ++
    (if update_requested then [.sent_key_update false, .updated_write_keys] else [])

/-! ## Concrete instances used by witnesses and counterexamples -/

/-- A cipher state whose encryption is the identity: a legitimate
instantiation of the opaque `Cipher_State` interface, used for concrete
witnesses. -/
def id_cipher : Cipher_State :=
  ⟨fun n => n, fun _ fragment => fragment, fun _ fragment => .ok (0, fragment)⟩

/-- A cipher state that decrypts any ciphertext to the inner plaintext
`ciphertext ++ [0x16]` (so an empty ciphertext yields an empty handshake
fragment). -/
def pad_cipher : Cipher_State :=
  ⟨fun n => n, fun _ f => f, fun _ f => .ok (0, f ++ [0x16])⟩

/-- A cipher state with an AES-GCM-like 16-byte AEAD expansion. -/
def gcm_like_cipher : Cipher_State :=
  ⟨fun n => n + 16, fun _ f => f ++ List.replicate 16 0,
   fun _ f => .ok (0, f.dropLast)⟩

/-- A ClientHello whose offers match `sh_down12`/`sh_down11` below. -/
def ch_ok : Client_Hello_13 :=
  ⟨[7], [0x1301], [0x0304], [43, 51], true⟩

/-- A ServerHello whose random ends in the TLS 1.2 downgrade sentinel and
which is otherwise consistent with `ch_ok`. -/
def sh_down12 : Server_Hello_13 :=
  ⟨List.replicate 24 0 ++ DOWNGRADE_TLS12, [7], 0x1301, 0x0304, [43, 51], true⟩

/-- A ServerHello whose random ends in the TLS 1.1 downgrade sentinel and
which is otherwise consistent with `ch_ok`. -/
def sh_down11 : Server_Hello_13 :=
  ⟨List.replicate 24 0 ++ DOWNGRADE_TLS11, [7], 0x1301, 0x0304, [43, 51], true⟩

/-! ## Helper lemmas about the record layer -/

theorem read_record_type_toByte (t : Record_Type) :
    read_record_type t.toByte = .ok t := by
  cases t <;> rfl

theorem make_uint16_split (n : Nat) :
    make_uint16 (n / 256) (n % 256) = n := by
  unfold make_uint16
  omega

/-- Unfolding of `parse_header` on an explicit five-byte header. -/
theorem parse_header_cons (b v1 v2 hi lo : Nat) (sinit : Bool) :
    parse_header [b, v1, v2, hi, lo] sinit =
      match read_record_type b with
      | .error e => .error e
      | .ok type =>
        if make_uint16 v1 v2 ≠ 0x0303 ∧ ¬(sinit = true ∧ make_uint16 v1 v2 = 0x0301) then
          .error .protocol_version
        else if make_uint16 hi lo = 0 ∧ type ≠ .APPLICATION_DATA then
          .error .decode_error
        else if type = .APPLICATION_DATA ∧ make_uint16 hi lo > MAX_CIPHERTEXT_SIZE_TLS13 then
          .error .record_overflow
        else if type ≠ .APPLICATION_DATA ∧ make_uint16 hi lo > MAX_PLAINTEXT_SIZE then
          .error .record_overflow
        else
          .ok ⟨type, make_uint16 v1 v2, make_uint16 hi lo, [b, v1, v2, hi, lo]⟩ := rfl

/-- A header-parse failure propagates out of `next_record` unchanged. -/
theorem next_record_parse_error (sinit : Bool) (b v1 v2 hi lo : Nat)
    (frag : List Nat) (cs : Option Cipher_State) (e : TLSError)
    (hp : parse_header [b, v1, v2, hi, lo] sinit = .error e) :
    next_record ⟨.SERVER, sinit, [b, v1, v2, hi, lo] ++ frag⟩ cs = .error e := by
  unfold next_record
  rw [if_neg (by simp)]
  rw [if_neg (by simp [TLS_HEADER_SIZE])]
  have ht : (([b, v1, v2, hi, lo] ++ frag).take TLS_HEADER_SIZE) = [b, v1, v2, hi, lo] := rfl
  simp only [ht, hp]

/-- Successful header parse for a protected (application_data) record. -/
theorem parse_header_app_ok (sinit : Bool) (v1 v2 n : Nat)
    (hn : n ≤ MAX_CIPHERTEXT_SIZE_TLS13)
    (hv : make_uint16 v1 v2 = 0x0303 ∨ (sinit = true ∧ make_uint16 v1 v2 = 0x0301)) :
    parse_header [0x17, v1, v2, n / 256, n % 256] sinit =
      .ok ⟨.APPLICATION_DATA, make_uint16 v1 v2, n, [0x17, v1, v2, n / 256, n % 256]⟩ := by
  have hn' : n ≤ 16640 := hn
  rw [parse_header_cons]
  have e1 : read_record_type 0x17 = .ok .APPLICATION_DATA := rfl
  rw [e1]
  simp only [make_uint16_split]
  rw [if_neg ?hvneg, if_neg (by simp),
    if_neg (by simp only [MAX_CIPHERTEXT_SIZE_TLS13]; omega), if_neg (by simp)]
  case hvneg =>
    rcases hv with h | ⟨hs, h⟩
    · simp [h]
    · simp [h, hs]

/-- Successful header parse for an unprotected record of any other type. -/
theorem parse_header_plain_ok (sinit : Bool) (t : Record_Type) (v1 v2 n : Nat)
    (ht : t ≠ .APPLICATION_DATA) (hn : n ≤ MAX_PLAINTEXT_SIZE) (hnz : n ≠ 0)
    (hv : make_uint16 v1 v2 = 0x0303 ∨ (sinit = true ∧ make_uint16 v1 v2 = 0x0301)) :
    parse_header [t.toByte, v1, v2, n / 256, n % 256] sinit =
      .ok ⟨t, make_uint16 v1 v2, n, [t.toByte, v1, v2, n / 256, n % 256]⟩ := by
  have hn' : n ≤ 16384 := hn
  rw [parse_header_cons, read_record_type_toByte]
  simp only [make_uint16_split]
  rw [if_neg ?hvneg, if_neg (by simp [hnz]), if_neg (by simp [ht]),
    if_neg (by simp only [ht, MAX_PLAINTEXT_SIZE, ne_eq, not_false_eq_true, true_and,
      gt_iff_lt, not_lt]; omega)]
  case hvneg =>
    rcases hv with h | ⟨hs, h⟩
    · simp [h]
    · simp [h, hs]

theorem drop_five_plus (a b c d e : Nat) (l : List Nat) (n : Nat) :
    ((a :: b :: c :: d :: e :: l).drop (5 + n)) = l.drop n := by
  rw [← List.drop_drop]
  rfl

/-- Successful `next_record` step on a complete unprotected record. -/
theorem next_record_plain_ok (sinit : Bool) (t : Record_Type) (v1 v2 : Nat)
    (frag rest : List Nat) (cs : Option Cipher_State)
    (hp : parse_header [t.toByte, v1, v2, frag.length / 256, frag.length % 256] sinit =
        .ok ⟨t, make_uint16 v1 v2, frag.length,
             [t.toByte, v1, v2, frag.length / 256, frag.length % 256]⟩)
    (ht : t ≠ .APPLICATION_DATA)
    (hccs : t = .CHANGE_CIPHER_SPEC → frag = [0x01]) :
    next_record ⟨.SERVER, sinit,
        [t.toByte, v1, v2, frag.length / 256, frag.length % 256] ++ (frag ++ rest)⟩ cs =
      .ok (.record ⟨t, none, frag⟩, ⟨.SERVER, false, rest⟩) := by
  unfold next_record
  rw [if_neg (by simp)]
  rw [if_neg (by simp [TLS_HEADER_SIZE])]
  have hfive : (([t.toByte, v1, v2, frag.length / 256, frag.length % 256] ++
      (frag ++ rest)).take TLS_HEADER_SIZE) =
      [t.toByte, v1, v2, frag.length / 256, frag.length % 256] := rfl
  rw [hfive, hp]
  simp only []
  rw [if_neg (by simp [TLS_HEADER_SIZE]; omega)]
  have hdropfive : (([t.toByte, v1, v2, frag.length / 256, frag.length % 256] ++
      (frag ++ rest)).drop TLS_HEADER_SIZE) = frag ++ rest := rfl
  rw [hdropfive, List.take_left]
  rw [if_neg ?hccsneg]
  case hccsneg =>
    rintro ⟨hc, hbad⟩
    exact hbad (by rw [hccs hc]; rfl)
  rw [if_neg (by simpa using ht)]
  have hdroprest : (([t.toByte, v1, v2, frag.length / 256, frag.length % 256] ++
      (frag ++ rest)).drop (TLS_HEADER_SIZE + frag.length)) = rest := by
    show ((t.toByte :: v1 :: v2 :: frag.length / 256 :: frag.length % 256 :: (frag ++ rest)).drop
      (5 + frag.length)) = rest
    rw [drop_five_plus, List.drop_left]
  rw [hdroprest]

/-- Successful `next_record` step on a complete protected record whose
decrypted inner type is not change_cipher_spec. -/
theorem next_record_protected_ok (sinit : Bool) (v1 v2 : Nat)
    (ct rest pt : List Nat) (c : Cipher_State) (seq : Nat) (t : Record_Type)
    (hp : parse_header [0x17, v1, v2, ct.length / 256, ct.length % 256] sinit =
        .ok ⟨.APPLICATION_DATA, make_uint16 v1 v2, ct.length,
             [0x17, v1, v2, ct.length / 256, ct.length % 256]⟩)
    (hdec : c.decrypt_record_fragment [0x17, v1, v2, ct.length / 256, ct.length % 256] ct =
        .ok (seq, pt))
    (hlast : read_record_type (pt.getLastD 0) = .ok t)
    (ht : t ≠ .CHANGE_CIPHER_SPEC) :
    next_record ⟨.SERVER, sinit,
        [0x17, v1, v2, ct.length / 256, ct.length % 256] ++ (ct ++ rest)⟩ (some c) =
      .ok (.record ⟨t, some seq, pt.dropLast⟩, ⟨.SERVER, false, rest⟩) := by
  unfold next_record
  rw [if_neg (by simp)]
  rw [if_neg (by simp [TLS_HEADER_SIZE])]
  have hfive : (([0x17, v1, v2, ct.length / 256, ct.length % 256] ++
      (ct ++ rest)).take TLS_HEADER_SIZE) =
      [0x17, v1, v2, ct.length / 256, ct.length % 256] := rfl
  rw [hfive, hp]
  simp only []
  rw [if_neg (by simp [TLS_HEADER_SIZE]; omega)]
  have hdropfive : (([0x17, v1, v2, ct.length / 256, ct.length % 256] ++
      (ct ++ rest)).drop TLS_HEADER_SIZE) = ct ++ rest := rfl
  rw [hdropfive, List.take_left]
  rw [if_neg (by simp)]
  simp only [if_true]
  rw [hdec]
  simp only []
  rw [hlast]
  simp only []
  rw [if_neg ht]
  have hdroprest : (([0x17, v1, v2, ct.length / 256, ct.length % 256] ++
      (ct ++ rest)).drop (TLS_HEADER_SIZE + ct.length)) = rest := by
    show ((0x17 :: v1 :: v2 :: ct.length / 256 :: ct.length % 256 :: (ct ++ rest)).drop
      (5 + ct.length)) = rest
    rw [drop_five_plus, List.drop_left]
  rw [hdroprest]

/-- Variant of the protected step with the ciphertext length abstracted. -/
theorem next_record_protected_ok_len (sinit : Bool) (v1 v2 n : Nat)
    (ct rest pt : List Nat) (c : Cipher_State) (seq : Nat) (t : Record_Type)
    (hlen : ct.length = n)
    (hp : parse_header [0x17, v1, v2, n / 256, n % 256] sinit =
        .ok ⟨.APPLICATION_DATA, make_uint16 v1 v2, n, [0x17, v1, v2, n / 256, n % 256]⟩)
    (hdec : c.decrypt_record_fragment [0x17, v1, v2, n / 256, n % 256] ct = .ok (seq, pt))
    (hlast : read_record_type (pt.getLastD 0) = .ok t)
    (ht : t ≠ .CHANGE_CIPHER_SPEC) :
    next_record ⟨.SERVER, sinit, [0x17, v1, v2, n / 256, n % 256] ++ (ct ++ rest)⟩
        (some c) =
      .ok (.record ⟨t, some seq, pt.dropLast⟩, ⟨.SERVER, false, rest⟩) := by
  subst hlen
  exact next_record_protected_ok sinit v1 v2 ct rest pt c seq t hp hdec hlast ht

/-- A complete protected record whose decrypted inner type is
change_cipher_spec is rejected with `unexpected_message`. -/
theorem next_record_protected_ccs_error (sinit : Bool) (v1 v2 : Nat)
    (ct rest pt : List Nat) (c : Cipher_State) (seq : Nat)
    (hp : parse_header [0x17, v1, v2, ct.length / 256, ct.length % 256] sinit =
        .ok ⟨.APPLICATION_DATA, make_uint16 v1 v2, ct.length,
             [0x17, v1, v2, ct.length / 256, ct.length % 256]⟩)
    (hdec : c.decrypt_record_fragment [0x17, v1, v2, ct.length / 256, ct.length % 256] ct =
        .ok (seq, pt))
    (hlast : pt.getLastD 0 = 0x14) :
    next_record ⟨.SERVER, sinit,
        [0x17, v1, v2, ct.length / 256, ct.length % 256] ++ (ct ++ rest)⟩ (some c) =
      .error .unexpected_message := by
  unfold next_record
  rw [if_neg (by simp)]
  rw [if_neg (by simp [TLS_HEADER_SIZE])]
  have hfive : (([0x17, v1, v2, ct.length / 256, ct.length % 256] ++
      (ct ++ rest)).take TLS_HEADER_SIZE) =
      [0x17, v1, v2, ct.length / 256, ct.length % 256] := rfl
  rw [hfive, hp]
  simp only []
  rw [if_neg (by simp [TLS_HEADER_SIZE]; omega)]
  have hdropfive : (([0x17, v1, v2, ct.length / 256, ct.length % 256] ++
      (ct ++ rest)).drop TLS_HEADER_SIZE) = ct ++ rest := rfl
  rw [hdropfive, List.take_left]
  rw [if_neg (by simp)]
  simp only [if_true]
  rw [hdec]
  simp only []
  rw [hlast]
  have hccs : read_record_type 0x14 = .ok .CHANGE_CIPHER_SPEC := rfl
  rw [hccs]
  simp only [if_true]

/-! ## Claims -/

/-- C5: with a complete buffered record, `next_record` rejects an
application_data record whose fragment length exceeds 2^14 + 256 with
`record_overflow`; rejects any other type above 2^14 with `record_overflow`
while exactly 2^14 passes the header checks (and is fully accepted for e.g.
handshake); rejects a zero-length fragment of any non-application_data type
with `decode_error`; and accepts a zero-length application_data fragment. -/
theorem C5_record_length_limits :
    (∀ (sinit : Bool) (n : Nat) (frag : List Nat) (cs : Option Cipher_State),
      MAX_CIPHERTEXT_SIZE_TLS13 < n → n < 65536 → frag.length = n →
      next_record ⟨.SERVER, sinit, [0x17, 3, 3, n / 256, n % 256] ++ frag⟩ cs =
        .error .record_overflow) ∧
    (∀ (sinit : Bool) (t : Record_Type) (n : Nat) (frag : List Nat) (cs : Option Cipher_State),
      t ≠ .APPLICATION_DATA → MAX_PLAINTEXT_SIZE < n → n < 65536 → frag.length = n →
      next_record ⟨.SERVER, sinit, [t.toByte, 3, 3, n / 256, n % 256] ++ frag⟩ cs =
        .error .record_overflow) ∧
    (∀ (sinit : Bool) (frag : List Nat) (cs : Option Cipher_State),
      frag.length = MAX_PLAINTEXT_SIZE →
      next_record ⟨.SERVER, sinit, [0x16, 3, 3, 64, 0] ++ frag⟩ cs =
        .ok (.record ⟨.HANDSHAKE, none, frag⟩, ⟨.SERVER, false, []⟩)) ∧
    (∀ (sinit : Bool) (t : Record_Type), t ≠ .APPLICATION_DATA →
      ∃ h, parse_header [t.toByte, 3, 3, 64, 0] sinit = .ok h ∧
        h.fragment_length = MAX_PLAINTEXT_SIZE) ∧
    (∀ (sinit : Bool) (t : Record_Type) (cs : Option Cipher_State),
      t ≠ .APPLICATION_DATA →
      next_record ⟨.SERVER, sinit, [t.toByte, 3, 3, 0, 0]⟩ cs = .error .decode_error) ∧
    next_record ⟨.SERVER, true, [0x17, 3, 3, 0, 0]⟩ (some pad_cipher) =
      .ok (.record ⟨.HANDSHAKE, some 0, []⟩, ⟨.SERVER, false, []⟩) := by
  refine ⟨?_, ?_, ?_, ?_, ?_, ?_⟩
  · intro sinit n frag cs hgt hlt hlen
    apply next_record_parse_error
    rw [parse_header_cons]
    have e1 : read_record_type 0x17 = .ok .APPLICATION_DATA := rfl
    rw [e1]
    simp only [make_uint16_split]
    rw [if_neg (by simp [make_uint16]), if_neg (by simp), if_pos ⟨trivial, hgt⟩]
  · intro sinit t n frag cs ht hgt hlt hlen
    have hgt' : 16384 < n := hgt
    apply next_record_parse_error
    rw [parse_header_cons, read_record_type_toByte]
    simp only [make_uint16_split]
    rw [if_neg (by simp [make_uint16]), if_neg (by rintro ⟨h0, -⟩; omega),
      if_neg (by simp [ht]), if_pos ⟨ht, hgt⟩]
  · intro sinit frag cs hlen
    have hp := parse_header_plain_ok sinit .HANDSHAKE 3 3 frag.length (by decide)
      (by rw [hlen]) (by rw [hlen]; decide) (Or.inl (by decide))
    have h := next_record_plain_ok sinit .HANDSHAKE 3 3 frag [] cs hp (by decide)
      (fun h => absurd h (by decide))
    simpa [hlen] using h
  · intro sinit t ht
    refine ⟨⟨t, make_uint16 3 3, 16384, [t.toByte, 3, 3, 64, 0]⟩, ?_, rfl⟩
    have h := parse_header_plain_ok sinit t 3 3 16384 ht (by decide) (by decide)
      (Or.inl (by decide))
    simpa using h
  · intro sinit t cs ht
    have h5 : ([t.toByte, 3, 3, 0, 0] : List Nat) = [t.toByte, 3, 3, 0, 0] ++ [] := by simp
    rw [h5]
    apply next_record_parse_error
    rw [parse_header_cons, read_record_type_toByte]
    simp only []
    rw [if_neg (by simp [make_uint16]), if_pos ⟨by simp [make_uint16], ht⟩]
  · rfl

/-- Witness for C5: concrete records at the boundary lengths. -/
theorem C5_record_length_limits_witness :
    next_record ⟨.SERVER, true, [0x17, 3, 3, 65, 1] ++ List.replicate 16641 0⟩ none =
      .error .record_overflow ∧
    next_record ⟨.SERVER, true, [0x16, 3, 3, 64, 1] ++ List.replicate 16385 0⟩ none =
      .error .record_overflow ∧
    next_record ⟨.SERVER, true, [0x16, 3, 3, 64, 0] ++ List.replicate 16384 0⟩ none =
      .ok (.record ⟨.HANDSHAKE, none, List.replicate 16384 0⟩, ⟨.SERVER, false, []⟩) ∧
    next_record ⟨.SERVER, true, [0x15, 3, 3, 0, 0]⟩ none = .error .decode_error :=
  ⟨C5_record_length_limits.1 true 16641 (List.replicate 16641 0) none (by decide)
     (by decide) (by rw [List.length_replicate]),
   C5_record_length_limits.2.1 true .HANDSHAKE 16385 (List.replicate 16385 0) none
     (by decide) (by decide) (by decide) (by rw [List.length_replicate]),
   C5_record_length_limits.2.2.1 true (List.replicate 16384 0) none
     (by rw [List.length_replicate, MAX_PLAINTEXT_SIZE]),
   C5_record_length_limits.2.2.2.2.1 true .ALERT none (by decide)⟩

/-- C8: for an inbound protected record, the last byte of the decrypted
inner plaintext is read as the true record type and stripped from the
fragment; a true type of change_cipher_spec is rejected fatally with
`unexpected_message`. -/
theorem C8_protected_inner_type (sinit : Bool) (c : Cipher_State) (seq : Nat)
    (ct pt rest : List Nat) (hbound : ct.length ≤ MAX_CIPHERTEXT_SIZE_TLS13)
    (hdec : c.decrypt_record_fragment [0x17, 3, 3, ct.length / 256, ct.length % 256] ct =
        .ok (seq, pt)) :
    (pt.getLastD 0 = 0x14 →
      next_record
          ⟨.SERVER, sinit, [0x17, 3, 3, ct.length / 256, ct.length % 256] ++ (ct ++ rest)⟩
          (some c) = .error .unexpected_message) ∧
    (∀ t : Record_Type, t ≠ .CHANGE_CIPHER_SPEC → pt.getLastD 0 = t.toByte →
      next_record
          ⟨.SERVER, sinit, [0x17, 3, 3, ct.length / 256, ct.length % 256] ++ (ct ++ rest)⟩
          (some c) = .ok (.record ⟨t, some seq, pt.dropLast⟩, ⟨.SERVER, false, rest⟩)) := by
  have hp := parse_header_app_ok sinit 3 3 ct.length hbound (Or.inl (by decide))
  constructor
  · intro hlast
    exact next_record_protected_ccs_error sinit 3 3 ct rest pt c seq hp hdec hlast
  · intro t ht hlast
    exact next_record_protected_ok sinit 3 3 ct rest pt c seq t hp hdec
      (by rw [hlast, read_record_type_toByte]) ht

/-- Witness for C8: under the identity cipher, an inner type byte 0x14
aborts with `unexpected_message`, while an inner handshake byte yields the
stripped record. -/
theorem C8_protected_inner_type_witness :
    next_record ⟨.SERVER, true, [0x17, 3, 3, 0, 2] ++ ([1, 0x14] ++ [])⟩ (some id_cipher) =
      .error .unexpected_message ∧
    next_record ⟨.SERVER, true, [0x17, 3, 3, 0, 2] ++ ([1, 0x16] ++ [])⟩ (some id_cipher) =
      .ok (.record ⟨.HANDSHAKE, some 0, [1]⟩, ⟨.SERVER, false, []⟩) :=
  ⟨(C8_protected_inner_type true id_cipher 0 [1, 0x14] [1, 0x14] [] (by decide) rfl).1 rfl,
   (C8_protected_inner_type true id_cipher 0 [1, 0x16] [1, 0x16] [] (by decide) rfl).2
     .HANDSHAKE (by decide) rfl⟩

/-- C3: the claim that `prepare_records`'s precomputed `output_length`
always matches the produced output fails exactly where the claim highlights
it — a plaintext whose length is a positive multiple of 2^14, protected.
With a 16-byte-expansion cipher and 16384 bytes of plaintext, the single
full fragment costs `encrypt_output_length(16385) = 16401` bytes, while the
precomputation uses `encrypt_output_length(16384 % 16384 + 1) =
encrypt_output_length(1) = 17`; the final
`BOTAN_ASSERT_NOMSG(output.size() == output_length)` (modelled as
`internal_error`) therefore fires. -/
theorem C3_output_length_assertion_fails :
    prepare_loop .HANDSHAKE (some gcm_like_cipher) .CLIENT (List.replicate 16384 0) true =
      .ok [⟨serialize_header .APPLICATION_DATA 16401 true,
            (List.replicate 16384 0 ++ [0x16]) ++ List.replicate 16 0⟩] ∧
    (wire_output [⟨serialize_header .APPLICATION_DATA 16401 true,
        (List.replicate 16384 0 ++ [0x16]) ++ List.replicate 16 0⟩]).length = 16406 ∧
    expected_output_length 16384 (some gcm_like_cipher) = 22 ∧
    prepare_records ⟨.CLIENT, true, []⟩ .HANDSHAKE (List.replicate 16384 0)
      (some gcm_like_cipher) = .error .internal_error := by
  have hchunk : (List.replicate 16384 (0 : Nat)).take
      (min (List.replicate 16384 (0 : Nat)).length MAX_PLAINTEXT_SIZE) =
      List.replicate 16384 (0 : Nat) := by
    rw [List.length_replicate, show min 16384 MAX_PLAINTEXT_SIZE = 16384 from rfl,
      List.take_replicate, show min 16384 16384 = 16384 from rfl]
  have henc : encode_fragment .HANDSHAKE (some gcm_like_cipher) true
      (List.replicate 16384 (0 : Nat)) =
      .ok ⟨serialize_header .APPLICATION_DATA 16401 true,
           (List.replicate 16384 0 ++ [0x16]) ++ List.replicate 16 0⟩ := by
    simp only [encode_fragment, gcm_like_cipher, List.length_replicate]
    rw [if_pos (by simp only [List.length_append, List.length_replicate,
      List.length_cons, List.length_nil])]
    norm_num [Record_Type.toByte]
  have hloop : prepare_loop .HANDSHAKE (some gcm_like_cipher) .CLIENT
      (List.replicate 16384 0) true =
      .ok [⟨serialize_header .APPLICATION_DATA 16401 true,
            (List.replicate 16384 0 ++ [0x16]) ++ List.replicate 16 0⟩] := by
    unfold prepare_loop
    simp only []
    rw [if_pos trivial, hchunk, henc]
    simp only []
    rw [dif_pos (by rw [List.length_replicate]; decide)]
  have hwire : (wire_output [⟨serialize_header .APPLICATION_DATA 16401 true,
      (List.replicate 16384 0 ++ [0x16]) ++ List.replicate 16 0⟩]).length = 16406 := by
    simp only [wire_output, List.map, List.flatten, List.append_nil, List.length_append,
      serialize_header, List.length_cons, List.length_nil, List.length_replicate]
  refine ⟨hloop, hwire, by decide, ?_⟩
  unfold prepare_records
  rw [if_neg (by simp), if_neg (by simp),
    if_neg (by rw [List.length_replicate]; decide),
    if_neg (by rintro ⟨h, -⟩; exact absurd h (by decide))]
  rw [hloop]
  simp only []
  rw [if_neg (by rw [hwire, List.length_replicate]; decide)]

theorem serialize_header_true (t : Record_Type) (n : Nat) :
    serialize_header t n true =
      [t.toByte, 3, 1, (n % 65536) / 256, (n % 65536) % 256] := by
  simp only [serialize_header, if_true]

theorem serialize_header_false (t : Record_Type) (n : Nat) :
    serialize_header t n false =
      [t.toByte, 3, 3, (n % 65536) / 256, (n % 65536) % 256] := by
  simp only [serialize_header, Bool.false_eq_true, if_false]

theorem version_mk (b0 b1 b2 b3 b4 : Nat) (body : List Nat) :
    OutRecord.version ⟨[b0, b1, b2, b3, b4], body⟩ = make_uint16 b1 b2 := rfl

theorem serialize_header_version (t : Record_Type) (n : Nat) (cb : Bool)
    (body : List Nat) :
    OutRecord.version ⟨serialize_header t n cb, body⟩ =
      if cb then 0x0301 else 0x0303 := by
  cases cb
  · rw [serialize_header_false, version_mk]
    decide
  · rw [serialize_header_true, version_mk]
    decide

theorem encode_fragment_version (t : Record_Type) (cs : Option Cipher_State) (cb : Bool)
    (chunk : List Nat) (r : OutRecord)
    (h : encode_fragment t cs cb chunk = .ok r) :
    r.version = if cb then 0x0301 else 0x0303 := by
  cases cs with
  | none =>
    unfold encode_fragment at h
    injection h with h
    subst h
    exact serialize_header_version t chunk.length cb chunk
  | some c =>
    unfold encode_fragment at h
    simp only [] at h
    split at h
    · injection h with h
      subst h
      exact serialize_header_version .APPLICATION_DATA
        (c.encrypt_output_length (chunk.length + 1)) cb
        (c.encrypt_record_fragment
          (serialize_header .APPLICATION_DATA (c.encrypt_output_length (chunk.length + 1)) cb)
          (chunk ++ [t.toByte]))
    · exact Except.noConfusion h

/-- Every record emitted by the fragmentation loop on the client side: the
first carries the compatibility version exactly when `m_initial_record` was
set, and all later ones carry 0x0303. -/
theorem prepare_loop_cons_versions :
    ∀ (k : Nat) (t : Record_Type) (cs : Option Cipher_State) (data : List Nat)
      (initial : Bool) (records : List OutRecord),
      data.length ≤ k →
      prepare_loop t cs .CLIENT data initial = .ok records →
      ∃ r rs, records = r :: rs ∧
        r.version = (if initial then 0x0301 else 0x0303) ∧
        ∀ x ∈ rs, x.version = 0x0303 := by
  intro k
  induction k with
  | zero =>
    intro t cs data initial records hk h
    unfold prepare_loop at h
    rw [if_pos rfl] at h
    simp only [] at h
    split at h
    · exact Except.noConfusion h
    · rename_i r henc
      split at h
      · injection h with h
        subst h
        exact ⟨r, [], rfl, encode_fragment_version t cs initial _ r henc, by simp⟩
      · rename_i hgt
        refine absurd ?_ hgt
        rw [Nat.le_zero.mp hk]
        exact Nat.zero_le _
  | succ k ih =>
    intro t cs data initial records hk h
    unfold prepare_loop at h
    rw [if_pos rfl] at h
    simp only [] at h
    split at h
    · exact Except.noConfusion h
    · rename_i r henc
      split at h
      · injection h with h
        subst h
        exact ⟨r, [], rfl, encode_fragment_version t cs initial _ r henc, by simp⟩
      · rename_i hgt
        split at h
        · exact Except.noConfusion h
        · rename_i rs' hloop
          injection h with h
          subst h
          have hM : MAX_PLAINTEXT_SIZE = 16384 := rfl
          have hlen : (data.drop (min data.length MAX_PLAINTEXT_SIZE)).length ≤ k := by
            rw [List.length_drop]
            rw [hM] at hgt ⊢
            omega
          obtain ⟨r', rs'', hrs, hv', hall⟩ :=
            ih t cs (data.drop (min data.length MAX_PLAINTEXT_SIZE)) false rs' hlen hloop
          refine ⟨r, rs', rfl, encode_fragment_version t cs initial _ r henc, ?_⟩
          intro x hx
          rw [hrs] at hx
          rcases List.mem_cons.mp hx with hx | hx
          · rw [hx]
            simpa using hv'
          · exact hall x hx

/-- Elimination of a successful `prepare_records` call into its parts. -/
theorem prepare_records_ok_elim {rl : Record_Layer} {t : Record_Type} {data : List Nat}
    {cs : Option Cipher_State} {out : List Nat} {records : List OutRecord}
    {rl' : Record_Layer}
    (h : prepare_records rl t data cs = .ok (out, records, rl')) :
    prepare_loop t cs rl.side data rl.initial_record = .ok records ∧
    out = wire_output records ∧
    rl' = { rl with initial_record := false } ∧
    ¬(cs.isNone = true ∧ t = .APPLICATION_DATA) ∧
    ¬(data.length = 0 ∧ t ≠ .APPLICATION_DATA) ∧
    (t = .CHANGE_CIPHER_SPEC → data = [0x01]) := by
  unfold prepare_records at h
  split at h
  · exact Except.noConfusion h
  split at h
  · exact Except.noConfusion h
  split at h
  · exact Except.noConfusion h
  split at h
  · exact Except.noConfusion h
  rename_i hccs
  split at h
  · exact Except.noConfusion h
  rename_i records' hloop
  simp only [] at h
  split at h
  · rename_i hout
    injection h with h
    rw [Prod.mk.injEq, Prod.mk.injEq] at h
    obtain ⟨h1, h2, h3⟩ := h
    subst h1
    subst h2
    subst h3
    rename_i hc1 hc2 hc3 hc4
    refine ⟨hloop, rfl, rfl, hc2, hc3, ?_⟩
    intro hteq
    by_contra hdata
    exact hccs ⟨hteq, by simp [verify_change_cipher_spec, hdata]⟩
  · exact Except.noConfusion h

/-- After the initial record has been sent, every record a client-side
layer emits carries legacy version 0x0303. -/
theorem run_prepares_all_0303 :
    ∀ (calls : List PrepCall) (rl : Record_Layer), rl.side = .CLIENT →
      rl.initial_record = false →
      ∀ records rl', run_prepares rl calls = .ok (records, rl') →
        ∀ r ∈ records, r.version = 0x0303 := by
  intro calls
  induction calls with
  | nil =>
    intro rl hs hi records rl' h r hr
    unfold run_prepares at h
    injection h with h
    rw [Prod.mk.injEq] at h
    rw [← h.1] at hr
    exact absurd hr (List.not_mem_nil r)
  | cons c rest ih =>
    intro rl hs hi records rl' h r hr
    unfold run_prepares at h
    split at h
    · exact Except.noConfusion h
    rename_i out1 recs1 rl1 heq1
    split at h
    · exact Except.noConfusion h
    rename_i recs2 rl2 heq2
    injection h with h
    rw [Prod.mk.injEq] at h
    obtain ⟨hrec, -⟩ := h
    subst hrec
    obtain ⟨hloop, -, hrl1, -, -, -⟩ := prepare_records_ok_elim heq1
    rw [hs, hi] at hloop
    rcases List.mem_append.mp hr with hr | hr
    · obtain ⟨r1, rs1, hcons, hv1, hall1⟩ :=
        prepare_loop_cons_versions c.data.length c.type c.cipher_state c.data false recs1
          (le_refl _) hloop
      rw [hcons] at hr
      rcases List.mem_cons.mp hr with hr | hr
      · rw [hr]
        simpa using hv1
      · exact hall1 r hr
    · exact ih rl1 (by rw [hrl1, hs]) (by rw [hrl1]) recs2 rl2 heq2 r hr

/-- C7: for every sequence of `prepare` calls on a client-side record
layer whose calls all succeed, the first outbound record emitted carries
legacy version 0x0301 and every subsequent outbound record carries
0x0303. -/
theorem C7_first_record_version (calls : List PrepCall) (buf : List Nat)
    (records : List OutRecord) (rl' : Record_Layer)
    (h : run_prepares ⟨.CLIENT, true, buf⟩ calls = .ok (records, rl'))
    (hne : records ≠ []) :
    ∃ r rs, records = r :: rs ∧ r.version = 0x0301 ∧
      ∀ x ∈ rs, x.version = 0x0303 := by
  cases calls with
  | nil =>
    unfold run_prepares at h
    injection h with h
    rw [Prod.mk.injEq] at h
    exact absurd h.1.symm hne
  | cons c rest =>
    unfold run_prepares at h
    split at h
    · exact Except.noConfusion h
    rename_i out1 recs1 rl1 heq1
    split at h
    · exact Except.noConfusion h
    rename_i recs2 rl2 heq2
    injection h with h
    rw [Prod.mk.injEq] at h
    obtain ⟨hrec, -⟩ := h
    subst hrec
    obtain ⟨hloop, -, hrl1, -, -, -⟩ := prepare_records_ok_elim heq1
    simp only at hloop
    obtain ⟨r1, rs1, hcons, hv1, hall1⟩ :=
      prepare_loop_cons_versions c.data.length c.type c.cipher_state c.data true recs1
        (le_refl _) hloop
    have hrest : ∀ x ∈ recs2, x.version = 0x0303 :=
      run_prepares_all_0303 rest rl1 (by rw [hrl1]) (by rw [hrl1]) recs2 rl2 heq2
    refine ⟨r1, rs1 ++ recs2, by rw [hcons]; simp, by simpa using hv1, ?_⟩
    intro x hx
    rcases List.mem_append.mp hx with hx | hx
    · exact hall1 x hx
    · exact hrest x hx

/-- Witness for C7: two handshake `prepare` calls on a fresh client layer;
the first record carries 0x0301, the second 0x0303. -/
theorem C7_first_record_version_witness :
    ∃ r rs,
      ([⟨[0x16, 3, 1, 0, 1], [1]⟩, ⟨[0x16, 3, 3, 0, 1], [2]⟩] : List OutRecord) = r :: rs ∧
      r.version = 0x0301 ∧ ∀ x ∈ rs, x.version = 0x0303 := by
  have hrun : run_prepares ⟨.CLIENT, true, []⟩
      [⟨.HANDSHAKE, [1], none⟩, ⟨.HANDSHAKE, [2], none⟩] =
      .ok ([⟨[0x16, 3, 1, 0, 1], [1]⟩, ⟨[0x16, 3, 3, 0, 1], [2]⟩], ⟨.CLIENT, false, []⟩) := by
    simp [run_prepares, prepare_records, prepare_loop, encode_fragment, wire_output,
      expected_output_length, serialize_header, verify_change_cipher_spec,
      MAX_PLAINTEXT_SIZE, TLS_HEADER_SIZE, Record_Type.toByte]
  exact C7_first_record_version [⟨.HANDSHAKE, [1], none⟩, ⟨.HANDSHAKE, [2], none⟩] []
    [⟨[0x16, 3, 1, 0, 1], [1]⟩, ⟨[0x16, 3, 3, 0, 1], [2]⟩] ⟨.CLIENT, false, []⟩ hrun
    (by simp)

/-- Contract of a matching cipher-state pair as used for the round trip:
decryption inverts encryption under the same associated data, and the AEAD
expansion respects the TLS 1.3 ciphertext bound for every in-range
plaintext (RFC 8446 5.2: at most 255 bytes of expansion plus the content
type byte). -/
def GoodCipher (c : Cipher_State) : Prop :=
  (∀ hdr f, ∃ n,
    c.decrypt_record_fragment hdr (c.encrypt_record_fragment hdr f) = .ok (n, f)) ∧
  (∀ n, n ≤ MAX_PLAINTEXT_SIZE + 1 →
    c.encrypt_output_length n ≤ MAX_CIPHERTEXT_SIZE_TLS13)

theorem wire_output_nil : wire_output [] = [] := rfl

theorem wire_output_cons (r : OutRecord) (rs : List OutRecord) :
    wire_output (r :: rs) = (r.header ++ r.body) ++ wire_output rs := by
  simp [wire_output]

/-- On an empty buffer the reader stops with `NeedMore` and no records. -/
theorem readAll_empty (fuel : Nat) (sinit : Bool) (cs : Option Cipher_State) :
    readAllRecords fuel ⟨.SERVER, sinit, []⟩ cs = .ok ([], ⟨.SERVER, sinit, []⟩) := by
  cases fuel with
  | zero => rfl
  | succ f =>
    unfold readAllRecords next_record
    simp [TLS_HEADER_SIZE]

/-- One successful `next_record` step prepends its record to whatever the
remaining fuel reads. -/
theorem readAll_cons_step (fuel : Nat) (st st' : Record_Layer)
    (cs : Option Cipher_State) (r : Record)
    (hnext : next_record st cs = .ok (.record r, st')) :
    readAllRecords (fuel + 1) st cs =
      match readAllRecords fuel st' cs with
      | .error e => .error e
      | .ok (rs, rl'') => .ok (r :: rs, rl'') := by
  have hstep : readAllRecords (fuel + 1) st cs =
      match next_record st cs with
      | .error e => .error e
      | .ok (.needMore _, rl') => .ok ([], rl')
      | .ok (.record r, rl') =>
        match readAllRecords fuel rl' cs with
        | .error e => .error e
        | .ok (rs, rl'') => .ok (r :: rs, rl'') := rfl
  rw [hstep, hnext]

theorem getLastD_append_single (l : List Nat) (a d : Nat) :
    (l ++ [a]).getLastD d = a := by
  induction l generalizing d with
  | nil => rfl
  | cons x xs ih =>
    rw [List.cons_append, List.getLastD_cons]
    exact ih x

/-- Round trip of one record: a fragment encoded by the outbound loop is
parsed back by `next_record` into a record with the original type and
chunk.  Covers both the unprotected and the protected case; a protected
change_cipher_spec is excluded (`next_record` rejects it). -/
theorem next_record_of_encode_fragment (sinit : Bool) (t : Record_Type) (cb : Bool)
    (chunk rest : List Nat) (cs : Option Cipher_State) (r : OutRecord)
    (henc : encode_fragment t cs cb chunk = .ok r)
    (hgood : ∀ c ∈ cs, GoodCipher c)
    (hplain : cs = none → t ≠ .APPLICATION_DATA ∧ chunk ≠ [])
    (hccs : t = .CHANGE_CIPHER_SPEC → chunk = [0x01] ∧ cs = none)
    (hlen : chunk.length ≤ MAX_PLAINTEXT_SIZE)
    (hv : cb = true → sinit = true) :
    ∃ s, next_record ⟨.SERVER, sinit, (r.header ++ r.body) ++ rest⟩ cs =
      .ok (.record ⟨t, s, chunk⟩, ⟨.SERVER, false, rest⟩) := by
  have hM : MAX_PLAINTEXT_SIZE = 16384 := rfl
  cases cs with
  | none =>
    unfold encode_fragment at henc
    injection henc with henc
    subst henc
    obtain ⟨ht, hne⟩ := hplain rfl
    have hnz : chunk.length ≠ 0 := fun h0 => hne (List.length_eq_zero.mp h0)
    have hmod : chunk.length % 65536 = chunk.length := Nat.mod_eq_of_lt (by omega)
    refine ⟨none, ?_⟩
    cases cb with
    | false =>
      show next_record
        ⟨.SERVER, sinit, (serialize_header t chunk.length false ++ chunk) ++ rest⟩ none = _
      rw [serialize_header_false, hmod, List.append_assoc]
      exact next_record_plain_ok sinit t 3 3 chunk rest none
        (parse_header_plain_ok sinit t 3 3 chunk.length ht hlen hnz (Or.inl (by decide)))
        ht (fun hc => (hccs hc).1)
    | true =>
      show next_record
        ⟨.SERVER, sinit, (serialize_header t chunk.length true ++ chunk) ++ rest⟩ none = _
      rw [serialize_header_true, hmod, List.append_assoc]
      exact next_record_plain_ok sinit t 3 1 chunk rest none
        (parse_header_plain_ok sinit t 3 1 chunk.length ht hlen hnz
          (Or.inr ⟨hv rfl, by decide⟩))
        ht (fun hc => (hccs hc).1)
  | some c =>
    have hgc : GoodCipher c := hgood c rfl
    have htccs : t ≠ .CHANGE_CIPHER_SPEC := fun hc => Option.noConfusion (hccs hc).2
    unfold encode_fragment at henc
    simp only [] at henc
    split at henc
    · rename_i hflen
      injection henc with henc
      subst henc
      have hbound : c.encrypt_output_length (chunk.length + 1) ≤ MAX_CIPHERTEXT_SIZE_TLS13 :=
        hgc.2 (chunk.length + 1) (by omega)
      have hC : MAX_CIPHERTEXT_SIZE_TLS13 = 16640 := rfl
      have hmod : c.encrypt_output_length (chunk.length + 1) % 65536 =
          c.encrypt_output_length (chunk.length + 1) := Nat.mod_eq_of_lt (by omega)
      obtain ⟨seq, hdec⟩ := hgc.1
        (serialize_header .APPLICATION_DATA (c.encrypt_output_length (chunk.length + 1)) cb)
        (chunk ++ [t.toByte])
      refine ⟨some seq, ?_⟩
      have hstrip :
          Record.mk t (some seq) chunk =
          Record.mk t (some seq) (chunk ++ [t.toByte]).dropLast := by
        rw [List.dropLast_concat]
      rw [hstrip]
      cases cb with
      | false =>
        rw [serialize_header_false] at hdec hflen ⊢
        rw [hmod] at hdec hflen ⊢
        rw [List.append_assoc]
        exact next_record_protected_ok_len sinit 3 3
          (c.encrypt_output_length (chunk.length + 1)) _ rest (chunk ++ [t.toByte]) c seq t
          hflen
          (parse_header_app_ok sinit 3 3 _ hbound (Or.inl (by decide)))
          hdec (by rw [getLastD_append_single, read_record_type_toByte]) htccs
      | true =>
        rw [serialize_header_true] at hdec hflen ⊢
        rw [hmod] at hdec hflen ⊢
        rw [List.append_assoc]
        exact next_record_protected_ok_len sinit 3 1
          (c.encrypt_output_length (chunk.length + 1)) _ rest (chunk ++ [t.toByte]) c seq t
          hflen
          (parse_header_app_ok sinit 3 1 _ hbound (Or.inr ⟨hv rfl, by decide⟩))
          hdec (by rw [getLastD_append_single, read_record_type_toByte]) htccs
    · exact Except.noConfusion henc

/-- The fragmentation loop emits at most `data.length + 1` records. -/
theorem prepare_loop_length_le :
    ∀ (k : Nat) (t : Record_Type) (cs : Option Cipher_State) (data : List Nat)
      (initial : Bool) (records : List OutRecord),
      data.length ≤ k →
      prepare_loop t cs .CLIENT data initial = .ok records →
      records.length ≤ data.length + 1 := by
  intro k
  induction k with
  | zero =>
    intro t cs data initial records hk h
    unfold prepare_loop at h
    rw [if_pos rfl] at h
    simp only [] at h
    split at h
    · exact Except.noConfusion h
    · rename_i r henc
      split at h
      · injection h with h
        subst h
        simp
      · rename_i hgt
        refine absurd ?_ hgt
        rw [Nat.le_zero.mp hk]
        exact Nat.zero_le _
  | succ k ih =>
    intro t cs data initial records hk h
    unfold prepare_loop at h
    rw [if_pos rfl] at h
    simp only [] at h
    split at h
    · exact Except.noConfusion h
    · rename_i r henc
      split at h
      · injection h with h
        subst h
        simp
      · rename_i hgt
        split at h
        · exact Except.noConfusion h
        · rename_i rs' hloop
          injection h with h
          subst h
          have hM : MAX_PLAINTEXT_SIZE = 16384 := rfl
          have hgt' : 16384 < data.length := by
            rw [hM] at hgt
            omega
          have hmin : min data.length MAX_PLAINTEXT_SIZE = MAX_PLAINTEXT_SIZE :=
            min_eq_right (by omega)
          have hdroplen : (data.drop (min data.length MAX_PLAINTEXT_SIZE)).length ≤ k := by
            rw [List.length_drop, hmin, hM]
            omega
          have := ih t cs (data.drop (min data.length MAX_PLAINTEXT_SIZE)) false rs'
            hdroplen hloop
          rw [List.length_drop, hmin, hM] at this
          rw [List.length_cons]
          omega

/-- The peer's reader parses the loop's complete wire output back into
records reproducing the plaintext. -/
theorem readAll_of_prepare_loop (t : Record_Type) (cs : Option Cipher_State)
    (hgood : ∀ c ∈ cs, GoodCipher c) :
    ∀ (k : Nat) (data : List Nat), data.length ≤ k →
      ∀ (initial sinit : Bool) (records : List OutRecord),
        prepare_loop t cs .CLIENT data initial = .ok records →
        (cs = none → t ≠ .APPLICATION_DATA ∧ data ≠ []) →
        (t = .CHANGE_CIPHER_SPEC → data = [0x01] ∧ cs = none) →
        (initial = true → sinit = true) →
        ∀ fuel : Nat,
          ∃ parsed : List Record,
            readAllRecords (records.length + fuel)
                ⟨.SERVER, sinit, wire_output records⟩ cs =
              .ok (parsed, ⟨.SERVER, false, []⟩) ∧
            parsed.length = records.length ∧
            (∀ x ∈ parsed, x.type = t) ∧
            (parsed.map Record.fragment).flatten = data := by
  intro k
  induction k with
  | zero =>
    intro data hk initial sinit records h hplain hccs hv fuel
    unfold prepare_loop at h
    rw [if_pos rfl] at h
    simp only [] at h
    split at h
    · exact Except.noConfusion h
    · rename_i r henc
      split at h
      · rename_i hle
        injection h with h
        subst h
        have htake : List.take (min data.length MAX_PLAINTEXT_SIZE) data = data := by
          rw [min_eq_left hle, List.take_length]
        rw [htake] at henc
        obtain ⟨s, hnext⟩ := next_record_of_encode_fragment sinit t initial data
          [] cs r henc hgood hplain hccs hle hv
        refine ⟨[⟨t, s, data⟩], ?_, by simp, by simp, by simp⟩
        rw [wire_output_cons, wire_output_nil]
        rw [show ([r] : List OutRecord).length + fuel = fuel + 1 by
          simp [Nat.add_comm]]
        rw [readAll_cons_step fuel _ _ cs _ hnext]
        rw [readAll_empty]
      · rename_i hgt
        refine absurd ?_ hgt
        rw [Nat.le_zero.mp hk]
        exact Nat.zero_le _
  | succ k ih =>
    intro data hk initial sinit records h hplain hccs hv fuel
    unfold prepare_loop at h
    rw [if_pos rfl] at h
    simp only [] at h
    split at h
    · exact Except.noConfusion h
    · rename_i r henc
      split at h
      · rename_i hle
        injection h with h
        subst h
        have htake : List.take (min data.length MAX_PLAINTEXT_SIZE) data = data := by
          rw [min_eq_left hle, List.take_length]
        rw [htake] at henc
        obtain ⟨s, hnext⟩ := next_record_of_encode_fragment sinit t initial data
          [] cs r henc hgood hplain hccs hle hv
        refine ⟨[⟨t, s, data⟩], ?_, by simp, by simp, by simp⟩
        rw [wire_output_cons, wire_output_nil]
        rw [show ([r] : List OutRecord).length + fuel = fuel + 1 by
          simp [Nat.add_comm]]
        rw [readAll_cons_step fuel _ _ cs _ hnext]
        rw [readAll_empty]
      · rename_i hgt
        split at h
        · exact Except.noConfusion h
        · rename_i rs' hloop
          injection h with h
          subst h
          have hM : MAX_PLAINTEXT_SIZE = 16384 := rfl
          have hgt' : 16384 < data.length := by
            rw [hM] at hgt
            omega
          have hmin : min data.length MAX_PLAINTEXT_SIZE = MAX_PLAINTEXT_SIZE :=
            min_eq_right (by omega)
          rw [hmin] at henc hloop
          have hchunklen : (data.take MAX_PLAINTEXT_SIZE).length = MAX_PLAINTEXT_SIZE := by
            rw [List.length_take]
            exact min_eq_left (by omega)
          have hplain' : cs = none →
              t ≠ .APPLICATION_DATA ∧ data.take MAX_PLAINTEXT_SIZE ≠ [] := by
            intro hnone
            refine ⟨(hplain hnone).1, ?_⟩
            intro hnil
            have hl := congrArg List.length hnil
            rw [hchunklen, hM] at hl
            simp at hl
          have hccs' : t = .CHANGE_CIPHER_SPEC →
              data.take MAX_PLAINTEXT_SIZE = [0x01] ∧ cs = none :=
            fun hc => absurd (show data.length ≤ MAX_PLAINTEXT_SIZE by
              rw [(hccs hc).1]; decide) hgt
          obtain ⟨s, hnext⟩ := next_record_of_encode_fragment sinit t initial
            (data.take MAX_PLAINTEXT_SIZE) (wire_output rs') cs r henc hgood hplain'
            hccs' (le_of_eq hchunklen) hv
          have hplain'' : cs = none →
              t ≠ .APPLICATION_DATA ∧ data.drop MAX_PLAINTEXT_SIZE ≠ [] := by
            intro hnone
            refine ⟨(hplain hnone).1, ?_⟩
            intro hnil
            have hl := congrArg List.length hnil
            rw [List.length_drop, hM] at hl
            simp at hl
            omega
          have hccs'' : t = .CHANGE_CIPHER_SPEC →
              data.drop MAX_PLAINTEXT_SIZE = [0x01] ∧ cs = none :=
            fun hc => absurd (show data.length ≤ MAX_PLAINTEXT_SIZE by
              rw [(hccs hc).1]; decide) hgt
          have hdroplen : (data.drop MAX_PLAINTEXT_SIZE).length ≤ k := by
            rw [List.length_drop, hM]
            omega
          obtain ⟨parsed', hread', hplen', htypes', hflat'⟩ :=
            ih (data.drop MAX_PLAINTEXT_SIZE) hdroplen false false rs' hloop hplain''
              hccs'' (fun hfalse => hfalse) fuel
          refine ⟨⟨t, s, data.take MAX_PLAINTEXT_SIZE⟩ :: parsed', ?_, ?_, ?_, ?_⟩
          · rw [wire_output_cons]
            rw [show (r :: rs').length + fuel = (rs'.length + fuel) + 1 by
              simp [List.length_cons]
              omega]
            rw [readAll_cons_step (rs'.length + fuel) _ _ cs _ hnext]
            rw [hread']
          · simp [hplen']
          · intro x hx
            rcases List.mem_cons.mp hx with hx | hx
            · rw [hx]
            · exact htypes' x hx
          · simp only [List.map_cons, List.flatten_cons, hflat']
            exact List.take_append_drop MAX_PLAINTEXT_SIZE data

/-- C2 counterexample: a change_cipher_spec prepared WITH a cipher state is
accepted by the outbound rules and emitted as a protected record, but the
peer rejects its parse with `unexpected_message` (protected CCS), so the
round trip fails for that combination. -/
theorem C2_counterexample_protected_ccs :
    prepare_records ⟨.CLIENT, true, []⟩ .CHANGE_CIPHER_SPEC [0x01] (some id_cipher) =
      .ok ([0x17, 3, 1, 0, 2, 0x01, 0x14],
           [⟨[0x17, 3, 1, 0, 2], [0x01, 0x14]⟩], ⟨.CLIENT, false, []⟩) ∧
    next_record (copy_data (Record_Layer.start .SERVER) [0x17, 3, 1, 0, 2, 0x01, 0x14])
      (some id_cipher) = .error .unexpected_message := by
  constructor
  · simp [prepare_records, prepare_loop, encode_fragment, id_cipher, wire_output,
      expected_output_length, serialize_header, verify_change_cipher_spec,
      MAX_PLAINTEXT_SIZE, TLS_HEADER_SIZE, Record_Type.toByte]
  · rfl

/-- C2 (amended): for every record type and plaintext accepted by the
outbound rules, and every optional matching cipher state, with the sole
exception of a change_cipher_spec prepared with a cipher state installed
(a protected CCS, which the peer rejects with `unexpected_message`),
feeding the byte vector returned by a successful `prepare_records` into a
fresh peer record layer and repeatedly calling `next_record` with the
matching cipher state yields one or more records, each of the original
type, whose fragments concatenated in order equal the plaintext. -/
theorem C2_roundtrip_amended (type : Record_Type) (data buf : List Nat)
    (cs : Option Cipher_State) (out : List Nat) (records : List OutRecord)
    (rl' : Record_Layer) (init0 : Bool)
    (hgood : ∀ c ∈ cs, GoodCipher c)
    (hprep : prepare_records ⟨.CLIENT, init0, buf⟩ type data cs = .ok (out, records, rl'))
    (hnotpccs : type = .CHANGE_CIPHER_SPEC → cs = none) :
    ∃ parsed : List Record,
      readAllRecords (data.length + 2) (copy_data (Record_Layer.start .SERVER) out) cs =
        .ok (parsed, ⟨.SERVER, false, []⟩) ∧
      parsed ≠ [] ∧ (∀ r ∈ parsed, r.type = type) ∧
      (parsed.map Record.fragment).flatten = data := by
  obtain ⟨hloop, hout, -, hnapp, hnzero, hccsd⟩ := prepare_records_ok_elim hprep
  simp only [] at hloop
  have hplain : cs = none → type ≠ .APPLICATION_DATA ∧ data ≠ [] := by
    intro hnone
    constructor
    · intro happ
      exact hnapp ⟨by rw [hnone]; rfl, happ⟩
    · intro hnil
      by_cases happ : type = .APPLICATION_DATA
      · exact hnapp ⟨by rw [hnone]; rfl, happ⟩
      · exact hnzero ⟨by rw [hnil]; rfl, happ⟩
  have hccs : type = .CHANGE_CIPHER_SPEC → data = [0x01] ∧ cs = none :=
    fun hc => ⟨hccsd hc, hnotpccs hc⟩
  have hlenle := prepare_loop_length_le data.length type cs data init0 records
    (le_refl _) hloop
  obtain ⟨r1, rs1, hcons, -, -⟩ :=
    prepare_loop_cons_versions data.length type cs data init0 records (le_refl _) hloop
  obtain ⟨parsed, hread, hplen, htypes, hflat⟩ :=
    readAll_of_prepare_loop type cs hgood data.length data (le_refl _) init0 true records
      hloop hplain hccs (fun _ => rfl) (data.length + 2 - records.length)
  have hfuel : records.length + (data.length + 2 - records.length) = data.length + 2 := by
    omega
  rw [hfuel] at hread
  have hbuf : copy_data (Record_Layer.start .SERVER) out =
      (⟨.SERVER, true, wire_output records⟩ : Record_Layer) := by
    rw [hout]
    rfl
  rw [hbuf]
  refine ⟨parsed, hread, ?_, htypes, hflat⟩
  intro hnil
  rw [hnil, hcons] at hplen
  simp at hplen

/-- Witness for C2 (amended): a one-byte handshake message round-trips
through a fresh peer layer (no cipher state). -/
theorem C2_roundtrip_amended_witness :
    ∃ parsed : List Record,
      readAllRecords 3 (copy_data (Record_Layer.start .SERVER) [0x16, 3, 1, 0, 1, 0x2a])
          none =
        .ok (parsed, ⟨.SERVER, false, []⟩) ∧
      parsed ≠ [] ∧ (∀ r ∈ parsed, r.type = .HANDSHAKE) ∧
      (parsed.map Record.fragment).flatten = [0x2a] := by
  have hprep : prepare_records ⟨.CLIENT, true, []⟩ .HANDSHAKE [0x2a] none =
      .ok ([0x16, 3, 1, 0, 1, 0x2a], [⟨[0x16, 3, 1, 0, 1], [0x2a]⟩],
           ⟨.CLIENT, false, []⟩) := by
    simp [prepare_records, prepare_loop, encode_fragment, wire_output,
      expected_output_length, serialize_header, verify_change_cipher_spec,
      MAX_PLAINTEXT_SIZE, TLS_HEADER_SIZE, Record_Type.toByte]
  have h := C2_roundtrip_amended .HANDSHAKE [0x2a] [] none
    [0x16, 3, 1, 0, 1, 0x2a] [⟨[0x16, 3, 1, 0, 1], [0x2a]⟩] ⟨.CLIENT, false, []⟩ true
    (by intro c hc; simp at hc) hprep (fun _ => rfl)
  simpa using h

/-- C10: on a post-handshake KeyUpdate the client rotates its read keys;
iff `request_update` is `update_requested` it additionally sends a
`KeyUpdate{update_not_requested}` and then rotates its write keys, and
otherwise does nothing further. -/
theorem C10_key_update_reciprocation :
    handle_key_update true =
      [.updated_read_keys, .sent_key_update false, .updated_write_keys] ∧
    handle_key_update false = [.updated_read_keys] :=
  ⟨rfl, rfl⟩

/-- C9: a dummy change_cipher_spec received by the client is silently
dropped (state, including the transcript, unchanged) iff the client has
already sent its first ClientHello and has not yet received the server
Finished; outside that window its receipt fails fatally with
`unexpected_message`. -/
theorem C9_dummy_ccs_window (hch hsf : Bool) (t : Transcript_Hash_State) :
    (hch = true → hsf = false →
      process_dummy_change_cipher_spec hch hsf t = .ok t) ∧
    (hch = false ∨ hsf = true →
      process_dummy_change_cipher_spec hch hsf t = .error .unexpected_message) := by
  cases hch <;> cases hsf <;> simp [process_dummy_change_cipher_spec]

/-- Witness for C9: both sides of the window at a concrete transcript. -/
theorem C9_dummy_ccs_window_witness :
    process_dummy_change_cipher_spec true false ⟨[[1]]⟩ = .ok ⟨[[1]]⟩ ∧
    process_dummy_change_cipher_spec true true ⟨[[1]]⟩ = .error .unexpected_message :=
  ⟨(C9_dummy_ccs_window true false ⟨[[1]]⟩).1 rfl rfl,
   (C9_dummy_ccs_window true true ⟨[[1]]⟩).2 (Or.inr rfl)⟩

/-- C6: validating a ServerHello or HelloRetryRequest fails fatally with
`illegal_parameter` if the `legacy_session_id_echo` differs from the one
sent, the cipher suite was not offered, or the selected version was not
offered via `supported_versions`; when those pass, any present extension
type that was not offered (other than `cookie`) fails with
`unsupported_extension`; and with none of these violations validation
succeeds. -/
theorem C6_server_hello_ish_validation (ch : Client_Hello_13) (sh : Server_Hello_13) :
    (ch.session_id ≠ sh.session_id ∨
        sh.ciphersuite ∉ ch.offered_suites ∨
        sh.selected_version ∉ ch.supported_versions →
      validate_server_hello_ish ch sh = .error .illegal_parameter) ∧
    (ch.session_id = sh.session_id →
      sh.ciphersuite ∈ ch.offered_suites →
      sh.selected_version ∈ ch.supported_versions →
      (∃ t ∈ sh.extension_types, t ≠ TLSEXT_COOKIE ∧ t ∉ ch.extension_types) →
      validate_server_hello_ish ch sh = .error .unsupported_extension) ∧
    (ch.session_id = sh.session_id →
      sh.ciphersuite ∈ ch.offered_suites →
      sh.selected_version ∈ ch.supported_versions →
      (∀ t ∈ sh.extension_types, t = TLSEXT_COOKIE ∨ t ∈ ch.extension_types) →
      validate_server_hello_ish ch sh = .ok ()) := by
  refine ⟨?_, ?_, ?_⟩
  · intro h
    unfold validate_server_hello_ish
    rcases h with h | h | h <;>
      by_cases h1 : ch.session_id = sh.session_id <;>
      by_cases h2 : sh.ciphersuite ∈ ch.offered_suites <;>
      simp_all
  · intro h1 h2 h3 h4
    obtain ⟨t, ht, hc, hn⟩ := h4
    unfold validate_server_hello_ish
    rw [if_neg (by simp [h1]), if_neg (by simp [h2]), if_neg (by simp [h3]),
      if_pos ⟨t, ht, hc, hn⟩]
  · intro h1 h2 h3 h4
    unfold validate_server_hello_ish
    rw [if_neg (by simp [h1]), if_neg (by simp [h2]), if_neg (by simp [h3]), if_neg ?_]
    rintro ⟨t, ht, hc, hn⟩
    rcases h4 t ht with h | h
    · exact hc h
    · exact hn h

/-- Witness for C6: a mismatched session id echo is rejected with
`illegal_parameter`; an un-offered extension (type 10) with everything else
consistent is rejected with `unsupported_extension`; a fully consistent
HelloRetryRequest-shaped message passes. -/
theorem C6_server_hello_ish_validation_witness :
    validate_server_hello_ish ch_ok ⟨[], [8], 0x1301, 0x0304, [43, 51], true⟩ =
      .error .illegal_parameter ∧
    validate_server_hello_ish ch_ok ⟨[], [7], 0x1301, 0x0304, [10], true⟩ =
      .error .unsupported_extension ∧
    validate_server_hello_ish ch_ok ⟨[], [7], 0x1301, 0x0304, [51, 44], true⟩ = .ok () :=
  ⟨(C6_server_hello_ish_validation ch_ok ⟨[], [8], 0x1301, 0x0304, [43, 51], true⟩).1
     (Or.inl (by decide)),
   (C6_server_hello_ish_validation ch_ok ⟨[], [7], 0x1301, 0x0304, [10], true⟩).2.1
     (by decide) (by decide) (by decide) ⟨10, by decide, by decide, by decide⟩,
   (C6_server_hello_ish_validation ch_ok ⟨[], [7], 0x1301, 0x0304, [51, 44], true⟩).2.2
     (by decide) (by decide) (by decide) (by decide)⟩

/-- C1 counterexample: a ServerHello negotiating TLS 1.3 whose random ends
in the TLS 1.2 downgrade sentinel is rejected with `Not_Implemented`
("downgrade is nyi"), not with an `illegal_parameter` alert as the claim
states. -/
theorem C1_counterexample_not_illegal_parameter :
    handle_server_hello_13 ch_ok none sh_down12 = .error .not_implemented ∧
    TLSError.not_implemented ≠ TLSError.illegal_parameter :=
  ⟨rfl, by decide⟩

/-- C1 (amended): when the client processes a ServerHello negotiating
TLS 1.3 whose last 8 bytes of server random equal a downgrade sentinel,
handling fails fatally — with `Not_Implemented` for the TLS 1.2 sentinel
and with a `protocol_version` alert for the TLS 1.1 sentinel. -/
theorem C1_downgrade_sentinel_amended (ch : Client_Hello_13)
    (hrr : Option Server_Hello_13) (sh : Server_Hello_13) :
    (sh.random.drop (sh.random.length - 8) = DOWNGRADE_TLS12 →
      handle_server_hello_13 ch hrr sh = .error .not_implemented) ∧
    (sh.random.drop (sh.random.length - 8) = DOWNGRADE_TLS11 →
      handle_server_hello_13 ch hrr sh = .error .protocol_version) := by
  constructor <;> intro h <;>
    simp [handle_server_hello_13, random_signals_downgrade, h,
      DOWNGRADE_TLS11, DOWNGRADE_TLS12]

/-- Witness for C1 (amended): concrete ServerHellos carrying each
sentinel. -/
theorem C1_downgrade_sentinel_amended_witness :
    handle_server_hello_13 ch_ok none sh_down12 = .error .not_implemented ∧
    handle_server_hello_13 ch_ok none sh_down11 = .error .protocol_version :=
  ⟨(C1_downgrade_sentinel_amended ch_ok none sh_down12).1 (by decide),
   (C1_downgrade_sentinel_amended ch_ok none sh_down11).2 (by decide)⟩

/-- C4: on the server Finished, the client verifies the MAC against the
transcript hash as it stood before the Finished message (`decrypt_error` on
mismatch); on success it (after an optional dummy CCS) sends the client
Finished and only then advances the cipher state — first
`advance_with_server_finished` on the transcript before the client Finished
(`t.current`, which includes the server Finished), then
`advance_with_client_finished` on the transcript including the client
Finished — after which `tls_session_activated` fires exactly once. -/
theorem C4_finished_processing (verify_fin : List (List Nat) → Bool)
    (compat : Bool) (client_fin : List (List Nat) → List Nat)
    (t : Transcript_Hash_State) :
    (verify_fin t.previous = false →
      handle_finished verify_fin compat client_fin t = .error .decrypt_error) ∧
    (verify_fin t.previous = true →
      handle_finished verify_fin compat client_fin t =
        .ok ((if compat then [.sent_dummy_ccs] else []) ++
              [.sent_client_finished (client_fin t.current),
               .advanced_with_server_finished t.current,
               .advanced_with_client_finished (t.current ++ [client_fin t.current]),
               .session_activated],
             t.update (client_fin t.current)) ∧
      ((if compat then [Event.sent_dummy_ccs] else []) ++
            [Event.sent_client_finished (client_fin t.current),
             Event.advanced_with_server_finished t.current,
             Event.advanced_with_client_finished (t.current ++ [client_fin t.current]),
             Event.session_activated]).count Event.session_activated = 1) := by
  constructor
  · intro h
    simp only [Transcript_Hash_State.previous] at h
    simp [handle_finished, Transcript_Hash_State.previous, h]
  · intro h
    simp only [Transcript_Hash_State.previous] at h
    refine ⟨?_, ?_⟩
    · simp [handle_finished, Transcript_Hash_State.update,
        Transcript_Hash_State.previous, Transcript_Hash_State.current, h,
        List.dropLast_concat]
    · cases compat <;> simp [List.count_cons, List.count_append]

/-- Witness for C4: a verifying Finished at a concrete transcript with
middlebox-compatibility mode enabled. -/
theorem C4_finished_processing_witness :
    handle_finished (fun _ => true) true (fun _ => [9]) ⟨[[1], [2]]⟩ =
      .ok ([.sent_dummy_ccs, .sent_client_finished [9],
            .advanced_with_server_finished [[1], [2]],
            .advanced_with_client_finished [[1], [2], [9]],
            .session_activated], ⟨[[1], [2], [9]]⟩) ∧
    handle_finished (fun _ => false) true (fun _ => [9]) ⟨[[1], [2]]⟩ =
      .error .decrypt_error := by
  constructor
  · have h := (C4_finished_processing (fun _ => true) true (fun _ => [9]) ⟨[[1], [2]]⟩).2 rfl
    simpa [Transcript_Hash_State.update, Transcript_Hash_State.current] using h.1
  · exact (C4_finished_processing (fun _ => false) true (fun _ => [9]) ⟨[[1], [2]]⟩).1 rfl

end BotanTLS
